import Mathlib

/-!
Shallow embedding of the `framed-serial` crate (`src/lib.rs`): a framing
layer over a byte-oriented non-blocking serial link.  Bytes are modelled as
`Nat` (the code treats payload bytes opaquely; the only byte comparison is
with the sentinel 0xFF).  The transport trait (`NonBlockingTx` /
`NonBlockingRx`) is modelled by explicit state-passing functions over a
transport-state type `σ`.  Rust `Vec` indexing, which panics when out of
bounds, is modelled with `Option`-returning lookups; the out-of-range
branch is a dedicated `oob` result constructor.  Loops are given explicit
fuel with a dedicated `fuelOut` constructor; fuel sufficiency is proved
where needed.
-/

namespace FramedSerial

/-- Rust: `pub const SENTINEL: u8 = 0xFF`. -/
def SENTINEL : Nat := 0xFF

/-- Rust: `struct HeaderState { bytes: [u8; 2], index: usize }`. -/
structure HeaderState where
  bytes : List Nat
  index : Nat
deriving DecidableEq

/-- Rust: `struct DataState { length: usize }`. -/
structure DataState where
  length : Nat
deriving DecidableEq

/-- Rust: `enum RecvState { Unknown, Header(HeaderState), Data(DataState) }`. -/
inductive RecvState where
  | Unknown
  | Header (hs : HeaderState)
  | Data (ds : DataState)
deriving DecidableEq

/-- Rust: `enum WhatNext { Sentinel, Header, Data }`. -/
inductive WhatNext where
  | Sentinel
  | Header
  | Data
deriving DecidableEq

/-- Rust: `struct SendingState { what_next, index, header_bytes: [u8;2], frame: Vec<u8> }`. -/
structure SendingState where
  what_next : WhatNext
  index : Nat
  header_bytes : List Nat
  frame : List Nat
deriving DecidableEq

/-- Rust: `enum SendState { NotSending, Sending(SendingState) }`. -/
inductive SendState where
  | NotSending
  | Sending (s : SendingState)
deriving DecidableEq

/-- Rust: `pub struct TickProgress { recv_is_done: bool, send_is_done: bool }`. -/
structure TickProgress where
  recv_is_done : Bool
  send_is_done : Bool
deriving DecidableEq

/-- The state of a `FramedConnection` apart from the owned serial device
(the serial device is threaded separately as transport state `σ`). -/
structure FramedConnection where
  recv_buf : List Nat
  recv_state : RecvState
  send_state : SendState
deriving DecidableEq

/-- Rust: `byteorder::LittleEndian::write_u16`, low byte first. -/
def write_u16 (n : Nat) : List Nat := [n % 256, n / 256 % 256]

/-- Rust: `byteorder::LittleEndian::read_u16`, that is `bytes[0] | bytes[1] << 8`. -/
def read_u16 (l : List Nat) : Nat := l.getD 0 0 + 256 * l.getD 1 0

/-- Rust: `FramedConnection::_start_recv_state`. -/
def _start_recv_state : RecvState := .Unknown

/-- Rust: `FramedConnection::_start_send_state`. -/
def _start_send_state : SendState := .NotSending

/-- Rust: `FramedConnection::new`. -/
def FramedConnection.new : FramedConnection :=
  { recv_buf := []
    recv_state := _start_recv_state
    send_state := _start_send_state }

/-- Result of `putc_try` on transport state `σ`: `Ok(Some(()))`,
`Ok(None)` (would block) or `Err(_)`. -/
inductive PutcResult (σ : Type u) where
  | accepted (tr : σ)
  | wouldBlock (tr : σ)
  | fail (tr : σ)

/-- Result of `getc_try` on transport state `σ`: `Ok(Some(byte))`,
`Ok(None)` or `Err(_)`. -/
inductive GetcResult (σ : Type u) where
  | got (b : Nat) (tr : σ)
  | empty (tr : σ)
  | fail (tr : σ)

/-- Outcome of `_send_tick`: `Ok(done)` with the resulting TX state,
`Err(_)` from the transport, an out-of-bounds `Vec` index (a Rust panic),
or exhausted fuel (an artifact of the embedding, never reached with
sufficient fuel). -/
inductive SendTickResult (σ : Type u) where
  | ok (done : Bool) (st : SendState) (tr : σ)
  | fail (st : SendState) (tr : σ)
  | oob (tr : σ)
  | fuelOut (tr : σ)
deriving DecidableEq

/-- The `loop` body of `FramedConnection::_send_tick` (lib.rs lines
263-305), for a TX state `Sending s`.  Each iteration computes the next
byte from the phase (`Sentinel → 0xFF`, `Header → header_bytes[index]`,
`Data → frame[index]`), offers it to the transport, and on acceptance
increments `index` and advances the phase. -/
def send_tick_loop {σ : Type u} (putc : σ → Nat → PutcResult σ) :
    Nat → σ → SendingState → SendTickResult σ
  | 0, tr, _ => .fuelOut tr
  | fuel + 1, tr, s =>
    let byteOpt : Option Nat :=
      match s.what_next with
      | .Sentinel => some SENTINEL
      | .Header => s.header_bytes[s.index]?
      | .Data => s.frame[s.index]?
    match byteOpt with
    | none => .oob tr
    | some byte =>
      match putc tr byte with
      | .accepted tr2 =>
        let i2 := s.index + 1
        match s.what_next with
        | .Sentinel =>
          send_tick_loop putc fuel tr2 { s with what_next := .Header, index := 0 }
        | .Header =>
          if i2 = 2 then
            send_tick_loop putc fuel tr2 { s with what_next := .Data, index := 0 }
          else
            send_tick_loop putc fuel tr2 { s with index := i2 }
        | .Data =>
          if i2 = s.frame.length then
            .ok true .NotSending tr2
          else
            send_tick_loop putc fuel tr2 { s with index := i2 }
      | .wouldBlock tr2 => .ok false (.Sending s) tr2
      | .fail tr2 => .fail (.Sending s) tr2

/-- Rust: `FramedConnection::_send_tick`.  `NotSending` returns `Ok(true)`
immediately; otherwise the send loop runs.  The fuel `frame.length + 4`
bounds the loop: it makes at most one recursive call per accepted byte
(1 sentinel + 2 header + payload) plus one final iteration. -/
def _send_tick {σ : Type u} (putc : σ → Nat → PutcResult σ) (tr : σ) :
    SendState → SendTickResult σ
  | .NotSending => .ok true .NotSending tr
  | .Sending s => send_tick_loop putc (s.frame.length + 4) tr s

/-- Rust: `FramedConnection::is_frame_complete`. -/
def is_frame_complete (rs : RecvState) (buf : List Nat) : Bool :=
  match rs with
  | .Unknown => false
  | .Header _ => false
  | .Data ds => ds.length = buf.length

/-- Bounds-checked array store, modelling `hs.bytes[hs.index] = byte`
(a Rust panic when `index` is out of range). -/
def setChecked (l : List Nat) (i : Nat) (b : Nat) : Option (List Nat) :=
  if i < l.length then some (l.set i b) else none

/-- Outcome of `_recv_tick`: `Ok(done)` with the resulting RX state and
receive buffer, `Err(_)` from the transport, an out-of-bounds array store
(a Rust panic), or exhausted fuel. -/
inductive RecvTickResult (σ : Type u) where
  | ok (done : Bool) (rs : RecvState) (buf : List Nat) (tr : σ)
  | fail (rs : RecvState) (buf : List Nat) (tr : σ)
  | oob (tr : σ)
  | fuelOut (rs : RecvState) (buf : List Nat) (tr : σ)
deriving DecidableEq

/-- The `loop` of `FramedConnection::_recv_tick` (lib.rs lines 315-362).
Each iteration first returns `Ok(true)` if the frame is complete, then
polls the transport for one byte and dispatches on the RX state:
`Unknown` waits for the sentinel, `Header` accumulates the two length
bytes, `Data` appends to the receive buffer. -/
def recv_tick_loop {σ : Type u} (getc : σ → GetcResult σ) :
    Nat → σ → RecvState → List Nat → RecvTickResult σ
  | 0, tr, rs, buf => .fuelOut rs buf tr
  | fuel + 1, tr, rs, buf =>
    if is_frame_complete rs buf then
      .ok true rs buf tr
    else
      match getc tr with
      | .got b tr2 =>
        match rs with
        | .Unknown =>
          if b = SENTINEL then
            recv_tick_loop getc fuel tr2 (.Header { bytes := [0, 0], index := 0 }) buf
          else
            recv_tick_loop getc fuel tr2 .Unknown buf
        | .Header hs =>
          match setChecked hs.bytes hs.index b with
          | none => .oob tr2
          | some bytes2 =>
            let i2 := hs.index + 1
            if i2 = 2 then
              recv_tick_loop getc fuel tr2 (.Data { length := read_u16 bytes2 }) buf
            else
              recv_tick_loop getc fuel tr2 (.Header { bytes := bytes2, index := i2 }) buf
        | .Data ds =>
          let buf2 := buf ++ [b]
          if buf2.length = ds.length then
            .ok true (.Data ds) buf2 tr2
          else
            recv_tick_loop getc fuel tr2 (.Data ds) buf2
      | .empty tr2 => .ok false rs buf tr2
      | .fail tr2 => .fail rs buf tr2

/-- Rust: `FramedConnection::schedule_send`.  Models `&mut self` by returning
the returned `Result` together with the connection after the call. -/
def schedule_send (c : FramedConnection) (frame : List Nat) :
    Except String Unit × FramedConnection :=
  if frame.length > 65535 then
    (.error "frame data too long", c)
  else
    (.ok (),
     { c with
        send_state := .Sending
          { what_next := .Sentinel
            index := 0
            header_bytes := write_u16 frame.length
            frame := frame } })

/-- Rust: `FramedConnection::get_frame`.  Models `&mut self` by returning the
call's `Result` together with the connection after the call. -/
def get_frame (c : FramedConnection) :
    Except String (List Nat) × FramedConnection :=
  match c.recv_state with
  | .Unknown => (.error "frame not available", c)
  | .Header _ => (.error "frame not available", c)
  | .Data ds =>
    if c.recv_buf.length = ds.length then
      (.ok c.recv_buf, { c with recv_buf := [], recv_state := _start_recv_state })
    else
      (.error "frame not available", c)

/-- Outcome of `tick`: the connection after the call, the `TickProgress`
on success, plus the transport-error, panic and fuel cases. -/
inductive TickResult (σ : Type u) where
  | ok (c : FramedConnection) (tp : TickProgress) (tr : σ)
  | fail (c : FramedConnection) (tr : σ)
  | oob (tr : σ)
  | fuelOut (tr : σ)
deriving DecidableEq

/-- Rust: `FramedConnection::tick`, running `_send_tick` first, then `_recv_tick`
(`?` propagates the first error; a TX panic prevents the RX step).
`fuelR` is the fuel for the RX loop. -/
def tick {σ : Type u} (putc : σ → Nat → PutcResult σ) (getc : σ → GetcResult σ)
    (fuelR : Nat) (tr : σ) (c : FramedConnection) : TickResult σ :=
  match _send_tick putc tr c.send_state with
  | .ok sdone st tr2 =>
    match recv_tick_loop getc fuelR tr2 c.recv_state c.recv_buf with
    | .ok rdone rs buf tr3 =>
      .ok { c with send_state := st, recv_state := rs, recv_buf := buf }
        { recv_is_done := rdone, send_is_done := sdone } tr3
    | .fail rs buf tr3 =>
      .fail { c with send_state := st, recv_state := rs, recv_buf := buf } tr3
    | .oob tr3 => .oob tr3
    | .fuelOut _ _ tr3 => .fuelOut tr3
  | .fail st tr2 => .fail { c with send_state := st } tr2
  | .oob tr2 => .oob tr2
  | .fuelOut tr2 => .fuelOut tr2

/-! ### Concrete transports used by the claims -/

/-- An always-accepting transport that records the bytes handed to it, in
order (the TX half of `MockSerial` from the test suite). -/
def putcAcc (out : List Nat) (b : Nat) : PutcResult (List Nat) :=
  .accepted (out ++ [b])

/-- A transport whose `putc_try` always reports would-block. -/
def putcBlocked (tr : Unit) (_b : Nat) : PutcResult Unit :=
  .wouldBlock tr

/-- A transport delivering a fixed list of bytes, then no data (the RX
half of `MockSerial` from the test suite). -/
def getcList : List Nat → GetcResult (List Nat)
  | [] => .empty []
  | b :: rest => .got b rest

/-- A transport whose `getc_try` always reports no data. -/
def getcEmpty (tr : Unit) : GetcResult Unit :=
  .empty tr

/-- The bytes of a frame on the wire: sentinel, little-endian length,
payload. -/
def wire (F : List Nat) : List Nat :=
  SENTINEL :: (write_u16 F.length ++ F)

/-- The connection after `new` then `schedule_send F`. -/
def writer_conn (F : List Nat) : FramedConnection :=
  (schedule_send FramedConnection.new F).2

/-- The bytes a connection state hands to an always-accepting transport
when ticked (the trace recorded by `putcAcc`), regardless of outcome. -/
def sent_bytes (st : SendState) : List Nat :=
  match _send_tick putcAcc [] st with
  | .ok _ _ tr => tr
  | .fail _ tr => tr
  | .oob tr => tr
  | .fuelOut tr => tr

/-- Run a fresh reader on an incoming byte list: one `_recv_tick` with a
`getcList` transport and enough fuel to drain the list. -/
def reader_drain (c : FramedConnection) (inbox : List Nat) :
    RecvTickResult (List Nat) :=
  recv_tick_loop getcList (inbox.length + 1) inbox c.recv_state c.recv_buf

def reader_after (inbox : List Nat) : FramedConnection :=
  match reader_drain FramedConnection.new inbox with
  | .ok _ rs buf _ => { recv_buf := buf, recv_state := rs, send_state := .NotSending }
  | _ => FramedConnection.new

def SendState.is_not_sending : SendState → Bool
  | .NotSending => true
  | .Sending _ => false

def SendWF : SendState → Prop
  | .NotSending => True
  | .Sending s =>
      (s.what_next = .Header → s.index < s.header_bytes.length) ∧
      (s.what_next = .Data → s.index < s.frame.length)

def RxInv : RecvState → List Nat → Prop
  | .Unknown, buf => buf = []
  | .Header _, buf => buf = []
  | .Data ds, buf => buf.length ≤ ds.length

def recv_result_inv {σ : Type u} : RecvTickResult σ → Prop
  | .ok _ rs buf _ => RxInv rs buf
  | .fail rs buf _ => RxInv rs buf
  | .oob _ => True
  | .fuelOut rs buf _ => RxInv rs buf

def RxHeaderWF : RecvState → Prop
  | .Header hs => hs.bytes.length = 2 ∧ hs.index < 2
  | _ => True

def recv_result_hwf {σ : Type u} : RecvTickResult σ → Prop
  | .ok _ rs _ _ => RxHeaderWF rs
  | .fail rs _ _ => RxHeaderWF rs
  | .oob _ => False
  | .fuelOut rs _ _ => RxHeaderWF rs

def SendSafe (s : SendingState) : Prop :=
  1 ≤ s.frame.length ∧ s.header_bytes.length = 2 ∧
  (s.what_next = .Header → s.index < 2) ∧
  (s.what_next = .Data → s.index < s.frame.length)

def send_result_safe {σ : Type u} : SendTickResult σ → Prop
  | .ok _ (.Sending s) _ => SendSafe s
  | .ok _ .NotSending _ => True
  | .fail (.Sending s) _ => SendSafe s
  | .fail .NotSending _ => True
  | .oob _ => False
  | .fuelOut _ => True

def tick_result_rx_inv {σ : Type u} : TickResult σ → Prop
  | .ok c _ _ => RxInv c.recv_state c.recv_buf
  | .fail c _ => RxInv c.recv_state c.recv_buf
  | .oob _ => True
  | .fuelOut _ => True

lemma send_loop_sentinel (fuel : Nat) (out : List Nat) (i : Nat) (hb F : List Nat) :
    send_tick_loop putcAcc (fuel + 1) out ⟨.Sentinel, i, hb, F⟩ =
      send_tick_loop putcAcc fuel (out ++ [SENTINEL]) ⟨.Header, 0, hb, F⟩ := by
  simp [send_tick_loop, putcAcc]

lemma send_loop_header0 (fuel : Nat) (out : List Nat) (a b : Nat) (F : List Nat) :
    send_tick_loop putcAcc (fuel + 1) out ⟨.Header, 0, [a, b], F⟩ =
      send_tick_loop putcAcc fuel (out ++ [a]) ⟨.Header, 1, [a, b], F⟩ := by
  simp [send_tick_loop, putcAcc]

lemma send_loop_header1 (fuel : Nat) (out : List Nat) (a b : Nat) (F : List Nat) :
    send_tick_loop putcAcc (fuel + 1) out ⟨.Header, 1, [a, b], F⟩ =
      send_tick_loop putcAcc fuel (out ++ [b]) ⟨.Data, 0, [a, b], F⟩ := by
  simp [send_tick_loop, putcAcc]

lemma send_loop_data_oob (fuel : Nat) (out : List Nat) (i : Nat) (hb : List Nat) :
    send_tick_loop putcAcc (fuel + 1) out ⟨.Data, i, hb, []⟩ = .oob out := by
  simp [send_tick_loop]

lemma send_loop_data (F : List Nat) : ∀ (fuel i : Nat) (out hb : List Nat),
    i < F.length → F.length - i ≤ fuel →
    send_tick_loop putcAcc fuel out ⟨.Data, i, hb, F⟩ =
      .ok true .NotSending (out ++ F.drop i)
  | 0, i, out, hb, hi, hfuel => by omega
  | fuel + 1, i, out, hb, hi, hfuel => by
    have hbyte : F[i]? = some F[i] := List.getElem?_eq_getElem hi
    have hdrop : F[i] :: F.drop (i + 1) = F.drop i := List.getElem_cons_drop F i hi
    simp only [send_tick_loop, hbyte, putcAcc]
    by_cases hlast : i + 1 = F.length
    · rw [if_pos hlast]
      have hnil : F.drop (i + 1) = [] := List.drop_eq_nil_of_le (by omega)
      have hone : F.drop i = [F[i]] := by rw [← hdrop, hnil]
      rw [hone]
    · rw [if_neg hlast,
        send_loop_data F fuel (i + 1) (out ++ [F[i]]) hb (by omega) (by omega),
        List.append_assoc, List.singleton_append, hdrop]

lemma send_loop_run (F : List Nat) (a b : Nat) (out : List Nat) (fuel : Nat)
    (hfuel : F.length + 4 ≤ fuel) :
    send_tick_loop putcAcc fuel out ⟨.Sentinel, 0, [a, b], F⟩ =
      if F.length = 0 then .oob (out ++ [SENTINEL, a, b])
      else .ok true .NotSending (out ++ SENTINEL :: a :: b :: F) := by
  obtain ⟨f, rfl⟩ : ∃ f, fuel = f + 1 + 1 + 1 := ⟨fuel - 3, by omega⟩
  rw [send_loop_sentinel, send_loop_header0, send_loop_header1]
  rcases F with _ | ⟨x, xs⟩
  · obtain ⟨f2, rfl⟩ : ∃ f2, f = f2 + 1 := ⟨f - 1, by omega⟩
    rw [send_loop_data_oob]
    simp
  · rw [send_loop_data _ f 0 _ _ (by simp) (by simp only [List.length_cons] at hfuel ⊢; omega)]
    simp

lemma sent_bytes_sending (F : List Nat) (a b : Nat) :
    sent_bytes (.Sending ⟨.Sentinel, 0, [a, b], F⟩) = SENTINEL :: a :: b :: F := by
  simp only [sent_bytes, _send_tick]
  rw [send_loop_run F a b [] _ (by exact le_rfl)]
  by_cases h0 : F.length = 0
  · obtain rfl : F = [] := List.length_eq_zero.mp h0
    simp
  · rw [if_neg h0]
    simp

lemma writer_conn_send_state (F : List Nat) (h : F.length ≤ 65535) :
    (writer_conn F).send_state = .Sending ⟨.Sentinel, 0, write_u16 F.length, F⟩ := by
  simp [writer_conn, schedule_send, show ¬ (F.length > 65535) from by omega]

lemma sent_bytes_writer (F : List Nat) (h : F.length ≤ 65535) :
    sent_bytes (writer_conn F).send_state =
      SENTINEL :: F.length % 256 :: F.length / 256 :: F := by
  rw [writer_conn_send_state F h, write_u16, sent_bytes_sending]
  have hd : F.length / 256 % 256 = F.length / 256 := by omega
  rw [hd]

lemma recv_loop_unknown_skip (fuel : Nat) (b : Nat) (hb : b ≠ SENTINEL)
    (inbox buf : List Nat) :
    recv_tick_loop getcList (fuel + 1) (b :: inbox) .Unknown buf =
      recv_tick_loop getcList fuel inbox .Unknown buf := by
  simp only [recv_tick_loop, is_frame_complete, getcList]
  rw [if_neg (by simp), if_neg hb]

lemma recv_loop_unknown_lock (fuel : Nat) (inbox buf : List Nat) :
    recv_tick_loop getcList (fuel + 1) (SENTINEL :: inbox) .Unknown buf =
      recv_tick_loop getcList fuel inbox (.Header ⟨[0, 0], 0⟩) buf := by
  simp only [recv_tick_loop, is_frame_complete, getcList]
  rw [if_neg (by simp)]
  simp

lemma recv_loop_header_a (fuel : Nat) (a : Nat) (inbox buf : List Nat) (x y : Nat) :
    recv_tick_loop getcList (fuel + 1) (a :: inbox) (.Header ⟨[x, y], 0⟩) buf =
      recv_tick_loop getcList fuel inbox (.Header ⟨[a, y], 1⟩) buf := by
  simp only [recv_tick_loop, is_frame_complete, getcList, setChecked]
  norm_num

lemma recv_loop_header_b (fuel : Nat) (b : Nat) (inbox buf : List Nat) (x y : Nat) :
    recv_tick_loop getcList (fuel + 1) (b :: inbox) (.Header ⟨[x, y], 1⟩) buf =
      recv_tick_loop getcList fuel inbox (.Data ⟨x + 256 * b⟩) buf := by
  simp only [recv_tick_loop, is_frame_complete, getcList, setChecked, read_u16]
  norm_num [List.set]

lemma recv_loop_data_run : ∀ (pending : List Nat) (fuel : Nat) (buf : List Nat)
    (L : Nat) (rest : List Nat),
    buf.length + pending.length = L → pending.length < fuel →
    recv_tick_loop getcList fuel (pending ++ rest) (.Data ⟨L⟩) buf =
      .ok true (.Data ⟨L⟩) (buf ++ pending) rest
  | [], fuel, buf, L, rest, hlen, hf => by
    obtain ⟨f, rfl⟩ : ∃ f, fuel = f + 1 := ⟨fuel - 1, by omega⟩
    simp only [List.length_nil, Nat.add_zero] at hlen
    simp only [recv_tick_loop, is_frame_complete]
    rw [if_pos (by simp only [decide_eq_true_eq]; omega)]
    simp
  | b :: pending, fuel, buf, L, rest, hlen, hf => by
    obtain ⟨f, rfl⟩ : ∃ f, fuel = f + 1 := ⟨fuel - 1, by omega⟩
    simp only [List.length_cons] at hlen hf
    simp only [recv_tick_loop, is_frame_complete, List.cons_append, getcList]
    rw [if_neg (by simp only [decide_eq_true_eq]; omega)]
    by_cases hend : pending = []
    · subst hend
      simp only [List.length_nil, Nat.zero_add] at hlen
      rw [if_pos (by
        simp only [decide_eq_true_eq, List.length_append, List.length_cons, List.length_nil]
        omega)]
      simp
    · have hp : 1 ≤ pending.length := List.length_pos.mpr hend
      rw [if_neg (by
        simp only [decide_eq_true_eq, List.length_append, List.length_cons, List.length_nil]
        omega)]
      rw [recv_loop_data_run pending f (buf ++ [b]) L rest
        (by simp only [List.length_append, List.length_cons, List.length_nil]; omega)
        (by omega)]
      rw [List.append_assoc, List.singleton_append]

lemma recv_loop_noise : ∀ (noise : List Nat) (fuel : Nat) (rest : List Nat),
    (∀ x ∈ noise, x ≠ SENTINEL) → noise.length ≤ fuel →
    recv_tick_loop getcList fuel (noise ++ rest) .Unknown [] =
      recv_tick_loop getcList (fuel - noise.length) rest .Unknown []
  | [], fuel, rest, h, hf => by simp
  | x :: xs, fuel, rest, h, hf => by
    simp only [List.length_cons] at hf
    obtain ⟨f, rfl⟩ : ∃ f, fuel = f + 1 := ⟨fuel - 1, by omega⟩
    rw [List.cons_append, recv_loop_unknown_skip f x (h x (by simp)) _ _,
      recv_loop_noise xs f rest (fun b hb => h b (by simp [hb])) (by omega)]
    congr 1
    simp only [List.length_cons]
    omega

lemma recv_loop_wire (F : List Nat) (hF : F.length ≤ 65535) (rest : List Nat)
    (fuel : Nat) (hfuel : F.length + 4 ≤ fuel) :
    recv_tick_loop getcList fuel (wire F ++ rest) .Unknown [] =
      .ok true (.Data ⟨F.length⟩) F rest := by
  obtain ⟨f, rfl⟩ : ∃ f, fuel = f + 1 + 1 + 1 := ⟨fuel - 3, by omega⟩
  have hsplit : wire F ++ rest =
      SENTINEL :: F.length % 256 :: F.length / 256 % 256 :: (F ++ rest) := by
    simp [wire, write_u16]
  rw [hsplit, recv_loop_unknown_lock, recv_loop_header_a, recv_loop_header_b,
    recv_loop_data_run F f [] _ rest
      (by simp only [List.length_nil, Nat.zero_add]; omega) (by omega)]
  have hL : F.length % 256 + 256 * (F.length / 256 % 256) = F.length := by omega
  rw [hL]
  simp

lemma reader_drain_wire (noise F : List Nat) (hn : ∀ x ∈ noise, x ≠ SENTINEL)
    (hF : F.length ≤ 65535) :
    reader_drain FramedConnection.new (noise ++ wire F) =
      .ok true (.Data ⟨F.length⟩) F [] := by
  have hwl : (wire F).length = F.length + 3 := by simp [wire, write_u16]
  unfold reader_drain FramedConnection.new
  show recv_tick_loop getcList ((noise ++ wire F).length + 1) (noise ++ wire F)
      .Unknown [] = _
  rw [show noise ++ wire F = noise ++ (wire F ++ []) from by simp]
  rw [recv_loop_noise noise _ (wire F ++ []) hn
      (by simp only [List.length_append]; omega)]
  rw [recv_loop_wire F hF [] _ (by simp only [List.length_append, hwl]; omega)]

lemma reader_after_wire (noise F : List Nat) (hn : ∀ x ∈ noise, x ≠ SENTINEL)
    (hF : F.length ≤ 65535) :
    reader_after (noise ++ wire F) =
      { recv_buf := F, recv_state := .Data ⟨F.length⟩, send_state := .NotSending } := by
  unfold reader_after
  rw [reader_drain_wire noise F hn hF]

lemma get_frame_complete (buf : List Nat) (L : Nat) (h : buf.length = L)
    (ss : SendState) :
    get_frame ⟨buf, .Data ⟨L⟩, ss⟩ = (.ok buf, ⟨[], .Unknown, ss⟩) := by
  simp [get_frame, h, _start_recv_state]

lemma recv_loop_inv {σ : Type u} (getc : σ → GetcResult σ) :
    ∀ (fuel : Nat) (tr : σ) (rs : RecvState) (buf : List Nat),
    RxInv rs buf → recv_result_inv (recv_tick_loop getc fuel tr rs buf)
  | 0, tr, rs, buf, h => h
  | fuel + 1, tr, rs, buf, h => by
    simp only [recv_tick_loop]
    split
    · exact h
    · next hc =>
      split
      · next b tr2 hg =>
        split
        · split
          · exact recv_loop_inv getc fuel tr2 _ buf h
          · exact recv_loop_inv getc fuel tr2 .Unknown buf h
        · next hs2 =>
          split
          · trivial
          · next bytes2 hset =>
            have hbuf : buf = [] := h
            split
            · exact recv_loop_inv getc fuel tr2 _ buf (by simp [RxInv, hbuf])
            · exact recv_loop_inv getc fuel tr2 _ buf h
        · next ds =>
          have hlt : buf.length < ds.length := by
            simp only [is_frame_complete, decide_eq_true_eq] at hc
            have hle : buf.length ≤ ds.length := h
            omega
          split
          · next hfull =>
            show RxInv (.Data ds) (buf ++ [b])
            simp only [RxInv, List.length_append, List.length_cons, List.length_nil]
            omega
          · exact recv_loop_inv getc fuel tr2 (.Data ds) (buf ++ [b])
              (by simp only [RxInv, List.length_append, List.length_cons,
                    List.length_nil]; omega)
      · exact h
      · exact h

lemma recv_loop_hwf {σ : Type u} (getc : σ → GetcResult σ) :
    ∀ (fuel : Nat) (tr : σ) (rs : RecvState) (buf : List Nat),
    RxHeaderWF rs → recv_result_hwf (recv_tick_loop getc fuel tr rs buf)
  | 0, tr, rs, buf, h => h
  | fuel + 1, tr, rs, buf, h => by
    simp only [recv_tick_loop]
    split
    · exact h
    · next hc =>
      split
      · next b tr2 hg =>
        split
        · split
          · exact recv_loop_hwf getc fuel tr2 _ buf ⟨rfl, by decide⟩
          · exact recv_loop_hwf getc fuel tr2 .Unknown buf h
        · next hs2 =>
          obtain ⟨h2, hidx⟩ := h
          have hlt : hs2.index < hs2.bytes.length := by omega
          split
          · next hset =>
            rw [setChecked, if_pos hlt] at hset
            exact Option.some_ne_none _ hset
          · next bytes2 hset =>
            rw [setChecked, if_pos hlt] at hset
            have hb2 : bytes2.length = 2 := by
              rw [← Option.some_inj.mp hset, List.length_set, h2]
            split
            · exact recv_loop_hwf getc fuel tr2 _ buf trivial
            · next hne =>
              exact recv_loop_hwf getc fuel tr2 _ buf
                ⟨hb2, show hs2.index + 1 < 2 by omega⟩
        · next ds =>
          split
          · trivial
          · exact recv_loop_hwf getc fuel tr2 (.Data ds) (buf ++ [b]) trivial
      · exact h
      · exact h

lemma sendSafe_header (idx : Nat) (hb F : List Nat) (hlen : 1 ≤ F.length)
    (hhb : hb.length = 2) (hidx : idx < 2) : SendSafe ⟨.Header, idx, hb, F⟩ := by
  refine ⟨?_, ?_, ?_, ?_⟩
  · show 1 ≤ F.length
    exact hlen
  · show hb.length = 2
    exact hhb
  · intro _
    show idx < 2
    exact hidx
  · intro hcon
    simp at hcon

lemma sendSafe_data (idx : Nat) (hb F : List Nat) (hhb : hb.length = 2)
    (hidx : idx < F.length) : SendSafe ⟨.Data, idx, hb, F⟩ := by
  refine ⟨?_, ?_, ?_, ?_⟩
  · show 1 ≤ F.length
    omega
  · show hb.length = 2
    exact hhb
  · intro hcon
    simp at hcon
  · intro _
    show idx < F.length
    exact hidx

lemma send_loop_safe {σ : Type u} (putc : σ → Nat → PutcResult σ) :
    ∀ (fuel : Nat) (tr : σ) (s : SendingState),
    SendSafe s → send_result_safe (send_tick_loop putc fuel tr s)
  | 0, tr, s, h => trivial
  | fuel + 1, tr, s, h => by
    obtain ⟨hlen, hhb, hH, hD⟩ := h
    simp only [send_tick_loop]
    cases hwn : s.what_next
    · simp only [hwn]
      cases hput : putc tr SENTINEL
      · exact send_loop_safe putc fuel _ _ (sendSafe_header 0 s.header_bytes s.frame hlen hhb (by omega))
      · exact ⟨hlen, hhb, hH, hD⟩
      · exact ⟨hlen, hhb, hH, hD⟩
    · have hidx : s.index < s.header_bytes.length := by rw [hhb]; exact hH hwn
      simp only [hwn, List.getElem?_eq_getElem hidx]
      cases hput : putc tr (s.header_bytes[s.index])
      · dsimp only
        by_cases h2 : s.index + 1 = 2
        · rw [if_pos h2]
          exact send_loop_safe putc fuel _ _ (sendSafe_data 0 s.header_bytes s.frame hhb (by omega))
        · rw [if_neg h2]
          have hi2 : s.index < 2 := hH hwn
          exact send_loop_safe putc fuel _ _ (sendSafe_header (s.index + 1) s.header_bytes s.frame hlen hhb (by omega))
      · exact ⟨hlen, hhb, hH, hD⟩
      · exact ⟨hlen, hhb, hH, hD⟩
    · have hidx : s.index < s.frame.length := hD hwn
      simp only [hwn, List.getElem?_eq_getElem hidx]
      cases hput : putc tr (s.frame[s.index])
      · dsimp only
        by_cases h2 : s.index + 1 = s.frame.length
        · rw [if_pos h2]
          trivial
        · rw [if_neg h2]
          exact send_loop_safe putc fuel _ _ (sendSafe_data (s.index + 1) s.header_bytes s.frame hhb (by omega))
      · exact ⟨hlen, hhb, hH, hD⟩
      · exact ⟨hlen, hhb, hH, hD⟩

lemma send_tick_blocked (st : SendState) (h : SendWF st) :
    _send_tick putcBlocked () st = .ok st.is_not_sending st () := by
  cases st with
  | NotSending => rfl
  | Sending s =>
    obtain ⟨hH, hD⟩ := h
    show send_tick_loop putcBlocked (s.frame.length + 4) () s =
      .ok false (.Sending s) ()
    rw [show s.frame.length + 4 = s.frame.length + 3 + 1 from rfl]
    simp only [send_tick_loop]
    cases hwn : s.what_next
    · simp only [hwn]
      rfl
    · have hidx : s.index < s.header_bytes.length := hH hwn
      simp only [hwn, List.getElem?_eq_getElem hidx]
      rfl
    · have hidx : s.index < s.frame.length := hD hwn
      simp only [hwn, List.getElem?_eq_getElem hidx]
      rfl

lemma recv_tick_blocked (fuel : Nat) (rs : RecvState) (buf : List Nat) :
    recv_tick_loop getcEmpty (fuel + 1) () rs buf =
      .ok (is_frame_complete rs buf) rs buf () := by
  simp only [recv_tick_loop]
  cases hb : is_frame_complete rs buf
  · rw [if_neg (by simp [hb])]
    rfl
  · rfl

lemma tick_rx_inv {σ : Type u} (putc : σ → Nat → PutcResult σ)
    (getc : σ → GetcResult σ) (fuelR : Nat) (tr : σ) (c : FramedConnection)
    (h : RxInv c.recv_state c.recv_buf) :
    tick_result_rx_inv (tick putc getc fuelR tr c) := by
  unfold tick
  split
  · next sdone st tr2 hsend =>
    split
    · next rdone rs2 buf2 tr3 hrecv =>
      have hrec := recv_loop_inv getc fuelR tr2 c.recv_state c.recv_buf h
      rw [hrecv] at hrec
      exact hrec
    · next rs2 buf2 tr3 hrecv =>
      have hrec := recv_loop_inv getc fuelR tr2 c.recv_state c.recv_buf h
      rw [hrecv] at hrec
      exact hrec
    · trivial
    · trivial
  · exact h
  · trivial
  · trivial

theorem tick_blocked_noop (c : FramedConnection) (fuelR : Nat)
    (h : SendWF c.send_state) :
    tick putcBlocked getcEmpty (fuelR + 1) () c =
      .ok c { recv_is_done := is_frame_complete c.recv_state c.recv_buf,
              send_is_done := c.send_state.is_not_sending } () := by
  unfold tick
  rw [send_tick_blocked c.send_state h]
  dsimp only
  rw [recv_tick_blocked fuelR c.recv_state c.recv_buf]

lemma recv_loop_data_step_incomplete (fuel : Nat) (L : Nat) (buf : List Nat)
    (b : Nat) (inbox : List Nat) (hlt : buf.length < L)
    (hne : buf.length + 1 ≠ L) :
    recv_tick_loop getcList (fuel + 1) (b :: inbox) (.Data ⟨L⟩) buf =
      recv_tick_loop getcList fuel inbox (.Data ⟨L⟩) (buf ++ [b]) := by
  simp only [recv_tick_loop, is_frame_complete, getcList]
  rw [if_neg (by simp only [decide_eq_true_eq]; omega),
    if_neg (by
      simp only [decide_eq_true_eq, List.length_append, List.length_cons,
        List.length_nil]
      omega)]

lemma recv_loop_empty_inbox (fuel : Nat) (rs : RecvState) (buf : List Nat)
    (h : ¬(is_frame_complete rs buf = true)) :
    recv_tick_loop getcList (fuel + 1) [] rs buf = .ok false rs buf [] := by
  simp only [recv_tick_loop, getcList]
  rw [if_neg h]

/-- Claim C1 (refuted by the code): scheduling the empty frame and ticking
with an accepting loopback transport does not round-trip; the TX loop
reaches the out-of-bounds `frame[0]` access (a Rust panic) right after
handing the bytes `FF 00 00` to the transport. -/
theorem empty_frame_round_trip_hits_oob :
    tick putcAcc getcList 9 [] (writer_conn []) = .oob [SENTINEL, 0, 0] := by
  rfl

/-- Claim C2 (refuted by the code): `schedule_send([])` succeeds and the
bytes `FF 00 00` are handed to an accepting transport, but `tick()` then
hits the out-of-bounds `frame[0]` access instead of reporting
`send_is_done = true`; the receiver half of the claim does hold. -/
theorem schedule_empty_emits_header_then_oob :
    (schedule_send FramedConnection.new []).1 = .ok () ∧
    sent_bytes (writer_conn []).send_state = [SENTINEL, 0, 0] ∧
    _send_tick putcAcc [] (writer_conn []).send_state = .oob [SENTINEL, 0, 0] ∧
    reader_drain FramedConnection.new [SENTINEL, 0, 0] =
      .ok true (.Data ⟨0⟩) [] [] ∧
    (get_frame (reader_after [SENTINEL, 0, 0])).1 = .ok [] := by
  exact ⟨rfl, rfl, rfl, rfl, rfl⟩

/-- Claim C3: for every frame accepted by `schedule_send`, the bytes handed
to the transport are the sentinel, the little-endian length (low byte
first), then the payload in order; in particular `"123"` goes out as
`FF 03 00 31 32 33`. -/
theorem send_emits_sentinel_length_payload (F : List Nat)
    (h : F.length ≤ 65535) :
    sent_bytes (writer_conn F).send_state =
      SENTINEL :: F.length % 256 :: F.length / 256 :: F ∧
    sent_bytes (writer_conn [0x31, 0x32, 0x33]).send_state =
      [0xFF, 0x03, 0x00, 0x31, 0x32, 0x33] :=
  ⟨sent_bytes_writer F h, by rfl⟩

/-- Witness for C3 at the concrete frame `"123"`. -/
theorem send_emits_sentinel_length_payload_witness :
    sent_bytes (writer_conn [0x31, 0x32, 0x33]).send_state =
      SENTINEL :: [0x31, 0x32, 0x33].length % 256 ::
        [0x31, 0x32, 0x33].length / 256 :: [0x31, 0x32, 0x33] :=
  (send_emits_sentinel_length_payload [0x31, 0x32, 0x33] (by decide)).1

/-- Claim C4: `schedule_send` fails with the too-long error exactly when
the frame exceeds 65535 bytes; on failure the connection is unchanged, on
success only the TX state changes, to the fresh `Sending` state. -/
theorem schedule_send_too_long_iff (c : FramedConnection) (F : List Nat) :
    ((schedule_send c F).1 = .error "frame data too long" ↔ F.length > 65535) ∧
    (F.length > 65535 → (schedule_send c F).2 = c) ∧
    (F.length ≤ 65535 →
      (schedule_send c F).1 = .ok () ∧
      (schedule_send c F).2 =
        { c with send_state :=
            .Sending ⟨.Sentinel, 0, write_u16 F.length, F⟩ }) := by
  by_cases h : F.length > 65535
  · refine ⟨by simp [schedule_send, h], fun _ => by simp [schedule_send, h],
      fun hle => by omega⟩
  · refine ⟨by simp [schedule_send, h], fun hc => by omega,
      fun _ => ⟨by simp [schedule_send, h], by simp [schedule_send, h]⟩⟩

/-- Witness for C4 at lengths 65536 (rejected, state unchanged) and 65535
(accepted). -/
theorem schedule_send_too_long_iff_witness :
    (schedule_send FramedConnection.new (List.replicate 65536 0)).1 =
      .error "frame data too long" ∧
    (schedule_send FramedConnection.new (List.replicate 65536 0)).2 =
      FramedConnection.new ∧
    (schedule_send FramedConnection.new (List.replicate 65535 0)).1 = .ok () := by
  have h1 := schedule_send_too_long_iff FramedConnection.new (List.replicate 65536 0)
  have h2 := schedule_send_too_long_iff FramedConnection.new (List.replicate 65535 0)
  have hlen1 : (List.replicate 65536 (0 : Nat)).length > 65535 := by
    rw [List.length_replicate]
    omega
  have hlen2 : (List.replicate 65535 (0 : Nat)).length ≤ 65535 := by
    rw [List.length_replicate]
  exact ⟨h1.1.mpr hlen1, h1.2.1 hlen1, (h2.2.2 hlen2).1⟩

/-- Claim C5: `schedule_send(G)` while TX is `Sending` succeeds and
replaces the in-flight send with the fresh `Sending` state for `G`; the
bytes subsequently handed to an accepting transport are exactly the wire
image of `G`, so no remainder of the old frame is ever emitted. -/
theorem schedule_send_overwrites (c : FramedConnection) (s : SendingState)
    (G : List Nat) (_hc : c.send_state = .Sending s) (hG : G.length ≤ 65535) :
    (schedule_send c G).1 = .ok () ∧
    (schedule_send c G).2 =
      { c with send_state :=
          .Sending ⟨.Sentinel, 0, write_u16 G.length, G⟩ } ∧
    sent_bytes (schedule_send c G).2.send_state =
      SENTINEL :: G.length % 256 :: G.length / 256 :: G := by
  have hnot : ¬(G.length > 65535) := by omega
  refine ⟨by simp [schedule_send, hnot], by simp [schedule_send, hnot], ?_⟩
  have hst : (schedule_send c G).2.send_state =
      .Sending ⟨.Sentinel, 0, write_u16 G.length, G⟩ := by
    simp [schedule_send, hnot]
  rw [hst, write_u16, sent_bytes_sending]
  have hd : G.length / 256 % 256 = G.length / 256 := by omega
  rw [hd]

/-- Witness for C5: overwriting an in-flight send of `[9, 9, 9]` with the
frame `[7]`. -/
theorem schedule_send_overwrites_witness :
    (schedule_send ⟨[], .Unknown, .Sending ⟨.Data, 1, [3, 0], [9, 9, 9]⟩⟩ [7]).1 =
      .ok () ∧
    (schedule_send ⟨[], .Unknown, .Sending ⟨.Data, 1, [3, 0], [9, 9, 9]⟩⟩ [7]).2 =
      { (⟨[], .Unknown, .Sending ⟨.Data, 1, [3, 0], [9, 9, 9]⟩⟩ : FramedConnection)
        with send_state := .Sending ⟨.Sentinel, 0, write_u16 [7].length, [7]⟩ } ∧
    sent_bytes (schedule_send
        ⟨[], .Unknown, .Sending ⟨.Data, 1, [3, 0], [9, 9, 9]⟩⟩ [7]).2.send_state =
      SENTINEL :: [7].length % 256 :: [7].length / 256 :: [7] :=
  schedule_send_overwrites ⟨[], .Unknown, .Sending ⟨.Data, 1, [3, 0], [9, 9, 9]⟩⟩
    ⟨.Data, 1, [3, 0], [9, 9, 9]⟩ [7] rfl (by decide)

/-- Claim C6: `get_frame` succeeds exactly when RX is `Data` with a full
buffer, transferring the buffer out and resetting RX to `Unknown`; in
every other state it returns the not-available error and leaves the
connection unchanged. -/
theorem get_frame_ready_iff (c : FramedConnection) :
    (∀ ds, c.recv_state = .Data ds → c.recv_buf.length = ds.length →
      get_frame c = (.ok c.recv_buf,
        { c with recv_buf := [], recv_state := .Unknown })) ∧
    ((∀ ds, c.recv_state = .Data ds → c.recv_buf.length ≠ ds.length) →
      get_frame c = (.error "frame not available", c)) := by
  constructor
  · intro ds hrs hlen
    simp [get_frame, hrs, hlen, _start_recv_state]
  · intro hne
    cases hrs : c.recv_state with
    | Unknown => simp [get_frame, hrs]
    | Header hs => simp [get_frame, hrs]
    | Data ds => simp [get_frame, hrs, hne ds hrs]

/-- Witness for C6: a complete `Data` state yields the frame and resets;
the fresh `Unknown` state yields the not-available error. -/
theorem get_frame_ready_iff_witness :
    get_frame ⟨[5], .Data ⟨1⟩, .NotSending⟩ =
      (.ok [5], ⟨[], .Unknown, .NotSending⟩) ∧
    get_frame ⟨[], .Unknown, .NotSending⟩ =
      (.error "frame not available", ⟨[], .Unknown, .NotSending⟩) :=
  ⟨(get_frame_ready_iff ⟨[5], .Data ⟨1⟩, .NotSending⟩).1 ⟨1⟩ rfl (by decide),
   (get_frame_ready_iff ⟨[], .Unknown, .NotSending⟩).2 (fun ds h => nomatch h)⟩

/-- Claim C7: in `Unknown` the receiver discards non-sentinel bytes and
locks on `0xFF`; header and payload bytes are consumed purely by state,
never re-interpreted as sentinels; `FF 01 00 FF` yields the frame `[0xFF]`;
sentinel-free noise before a frame leaves the frame intact. -/
theorem receiver_resync_and_payload_opacity :
    (∀ b : Nat, b ≠ SENTINEL →
      recv_tick_loop getcList 2 [b] .Unknown [] = .ok false .Unknown [] []) ∧
    (recv_tick_loop getcList 2 [SENTINEL] .Unknown [] =
      .ok false (.Header ⟨[0, 0], 0⟩) [] []) ∧
    (∀ (a b : Nat) (rest : List Nat) (fuel : Nat),
      recv_tick_loop getcList (fuel + 1 + 1 + 1) (SENTINEL :: a :: b :: rest)
          .Unknown [] =
        recv_tick_loop getcList fuel rest (.Data ⟨a + 256 * b⟩) []) ∧
    (∀ (L : Nat) (buf : List Nat) (b : Nat), buf.length < L →
      recv_tick_loop getcList 2 [b] (.Data ⟨L⟩) buf =
        .ok (decide (buf.length + 1 = L)) (.Data ⟨L⟩) (buf ++ [b]) []) ∧
    (reader_drain FramedConnection.new [SENTINEL, 1, 0, SENTINEL] =
      .ok true (.Data ⟨1⟩) [SENTINEL] [] ∧
     (get_frame (reader_after [SENTINEL, 1, 0, SENTINEL])).1 = .ok [SENTINEL]) ∧
    (∀ (noise F : List Nat), (∀ x ∈ noise, x ≠ SENTINEL) → F.length ≤ 65535 →
      (get_frame (reader_after (noise ++ wire F))).1 = .ok F) := by
  refine ⟨?_, ?_, ?_, ?_, ⟨rfl, rfl⟩, ?_⟩
  · intro b hb
    rw [show (2 : Nat) = 1 + 1 from rfl, recv_loop_unknown_skip 1 b hb [] []]
    rfl
  · rw [show (2 : Nat) = 1 + 1 from rfl, recv_loop_unknown_lock 1 [] []]
    rfl
  · intro a b rest fuel
    rw [recv_loop_unknown_lock, recv_loop_header_a, recv_loop_header_b]
  · intro L buf b hlt
    by_cases hfull : buf.length + 1 = L
    · rw [show [b] = [b] ++ ([] : List Nat) from rfl,
        recv_loop_data_run [b] 2 buf L []
          (by simp only [List.length_cons, List.length_nil]; omega)
          (by simp only [List.length_cons, List.length_nil]; omega)]
      rw [decide_eq_true hfull]
      simp
    · rw [show (2 : Nat) = 0 + 1 + 1 from rfl,
        recv_loop_data_step_incomplete (0 + 1) L buf b [] hlt hfull,
        recv_loop_empty_inbox 0 (.Data ⟨L⟩) (buf ++ [b]) (by
          simp only [is_frame_complete, decide_eq_true_eq, List.length_append,
            List.length_cons, List.length_nil]
          omega),
        decide_eq_false hfull]
  · intro noise F hn hF
    rw [reader_after_wire noise F hn hF, get_frame_complete F F.length rfl]

/-- Witness for C7: discarding the non-sentinel byte 7, storing a payload
byte into a length-2 frame, and recovering `[0x41]` after noise. -/
theorem receiver_resync_and_payload_opacity_witness :
    recv_tick_loop getcList 2 [7] .Unknown [] = .ok false .Unknown [] [] ∧
    recv_tick_loop getcList 2 [255] (.Data ⟨2⟩) [] =
      .ok (decide (List.length ([] : List Nat) + 1 = 2)) (.Data ⟨2⟩) [255] [] ∧
    (get_frame (reader_after ([0] ++ wire [0x41]))).1 = .ok [0x41] := by
  refine ⟨receiver_resync_and_payload_opacity.1 7 (by decide), ?_, ?_⟩
  · exact receiver_resync_and_payload_opacity.2.2.2.1 2 [] 255 (by decide)
  · exact receiver_resync_and_payload_opacity.2.2.2.2.2 [0] [0x41]
      (by decide) (by decide)

/-- Claim C8: a `tick()` against a transport that always reports
would-block and no-data is a no-op on the connection and reports
`send_is_done` iff TX is `NotSending` and `recv_is_done` iff RX holds a
completed frame.  The hypothesis is the TX data-model invariant (`index`
in bounds while `Sending`). -/
theorem tick_blocked_is_noop (c : FramedConnection) (fuelR : Nat)
    (h : SendWF c.send_state) :
    tick putcBlocked getcEmpty (fuelR + 1) () c =
      .ok c { recv_is_done := is_frame_complete c.recv_state c.recv_buf,
              send_is_done := c.send_state.is_not_sending } () :=
  tick_blocked_noop c fuelR h

/-- Witness for C8 on a mid-send, mid-receive connection. -/
theorem tick_blocked_is_noop_witness :
    tick putcBlocked getcEmpty 1 ()
        ⟨[4], .Data ⟨2⟩, .Sending ⟨.Data, 1, [3, 0], [1, 2, 3]⟩⟩ =
      .ok ⟨[4], .Data ⟨2⟩, .Sending ⟨.Data, 1, [3, 0], [1, 2, 3]⟩⟩
        { recv_is_done := is_frame_complete (.Data ⟨2⟩) [4],
          send_is_done :=
            SendState.is_not_sending (.Sending ⟨.Data, 1, [3, 0], [1, 2, 3]⟩) } () :=
  tick_blocked_is_noop ⟨[4], .Data ⟨2⟩, .Sending ⟨.Data, 1, [3, 0], [1, 2, 3]⟩⟩ 0
    ⟨fun hcon => absurd hcon (by decide), fun _ => by decide⟩

/-- Claim C9: the RX invariant (empty buffer in `Unknown`/`Header`,
`|recv_buf| ≤ length` in `Data`) holds initially and is preserved by
`schedule_send`, `get_frame` and `tick` (for every transport), and a full
buffer in `Data` makes the next `get_frame` succeed. -/
theorem rx_invariant_preserved :
    RxInv FramedConnection.new.recv_state FramedConnection.new.recv_buf ∧
    (∀ (c : FramedConnection) (F : List Nat), RxInv c.recv_state c.recv_buf →
      RxInv (schedule_send c F).2.recv_state (schedule_send c F).2.recv_buf) ∧
    (∀ c : FramedConnection, RxInv c.recv_state c.recv_buf →
      RxInv (get_frame c).2.recv_state (get_frame c).2.recv_buf) ∧
    (∀ (σ : Type) (putc : σ → Nat → PutcResult σ) (getc : σ → GetcResult σ)
      (fuelR : Nat) (tr : σ) (c : FramedConnection),
      RxInv c.recv_state c.recv_buf →
      tick_result_rx_inv (tick putc getc fuelR tr c)) ∧
    (∀ (c : FramedConnection) (ds : DataState), c.recv_state = .Data ds →
      c.recv_buf.length = ds.length → (get_frame c).1 = .ok c.recv_buf) := by
  refine ⟨rfl, ?_, ?_, ?_, ?_⟩
  · intro c F h
    unfold schedule_send
    split
    · exact h
    · exact h
  · intro c h
    unfold get_frame
    split
    · exact h
    · exact h
    · split
      · exact rfl
      · exact h
  · intro σ putc getc fuelR tr c h
    exact tick_rx_inv putc getc fuelR tr c h
  · intro c ds hrs hlen
    simp [get_frame, hrs, hlen]

/-- Witness for C9 on concrete connections and the blocked transport. -/
theorem rx_invariant_preserved_witness :
    RxInv (schedule_send FramedConnection.new [1]).2.recv_state
      (schedule_send FramedConnection.new [1]).2.recv_buf ∧
    RxInv (get_frame ⟨[5], .Data ⟨1⟩, .NotSending⟩).2.recv_state
      (get_frame ⟨[5], .Data ⟨1⟩, .NotSending⟩).2.recv_buf ∧
    tick_result_rx_inv (tick putcBlocked getcEmpty 1 () FramedConnection.new) ∧
    (get_frame ⟨[5], .Data ⟨1⟩, .NotSending⟩).1 = .ok [5] :=
  ⟨rx_invariant_preserved.2.1 FramedConnection.new [1] rfl,
   rx_invariant_preserved.2.2.1 ⟨[5], .Data ⟨1⟩, .NotSending⟩
     (by show [5].length ≤ 1; decide),
   rx_invariant_preserved.2.2.2.1 Unit putcBlocked getcEmpty 1 ()
     FramedConnection.new rfl,
   rx_invariant_preserved.2.2.2.2 ⟨[5], .Data ⟨1⟩, .NotSending⟩ ⟨1⟩ rfl
     (by decide)⟩

/-- Claim C10 counterexample: for the scheduled empty frame the TX loop
does take the out-of-range branch of the `frame[index]` lookup (the Rust
code panics), so the accesses are not in bounds for every scheduled frame. -/
theorem send_tick_empty_frame_out_of_bounds :
    _send_tick putcAcc [] (writer_conn []).send_state = .oob [SENTINEL, 0, 0] := by
  rfl

/-- Claim C10 (amended to nonempty frames): for every scheduled frame with
`1 ≤ |F| ≤ 65535` the TX lookups `header_bytes[index]` and `frame[index]`
lookups stay in bounds for any transport (and in-bounds states are
preserved), and the RX header store `bytes[index]` stays in bounds from
any well-formed header state, in particular from the initial state. -/
theorem tick_accesses_in_bounds_for_nonempty :
    (∀ (σ : Type) (putc : σ → Nat → PutcResult σ) (fuel : Nat) (tr : σ)
        (s : SendingState), SendSafe s →
        send_result_safe (send_tick_loop putc fuel tr s)) ∧
    (∀ F : List Nat, 1 ≤ F.length → F.length ≤ 65535 →
        SendSafe ⟨.Sentinel, 0, write_u16 F.length, F⟩ ∧
        (writer_conn F).send_state =
          .Sending ⟨.Sentinel, 0, write_u16 F.length, F⟩) ∧
    (∀ (σ : Type) (getc : σ → GetcResult σ) (fuel : Nat) (tr : σ)
        (rs : RecvState) (buf : List Nat), RxHeaderWF rs →
        recv_result_hwf (recv_tick_loop getc fuel tr rs buf)) ∧
    RxHeaderWF FramedConnection.new.recv_state := by
  refine ⟨fun σ putc fuel tr s h => send_loop_safe putc fuel tr s h,
    fun F h1 h2 => ⟨?_, writer_conn_send_state F h2⟩,
    fun σ getc fuel tr rs buf h => recv_loop_hwf getc fuel tr rs buf h,
    trivial⟩
  refine ⟨?_, ?_, ?_, ?_⟩
  · show 1 ≤ F.length
    exact h1
  · show (write_u16 F.length).length = 2
    simp [write_u16]
  · intro hcon
    simp at hcon
  · intro hcon
    simp at hcon

/-- Witness for the amended C10 on a concrete sending state, frame and
receive state. -/
theorem tick_accesses_in_bounds_for_nonempty_witness :
    send_result_safe (send_tick_loop putcBlocked 1 () ⟨.Data, 0, [1, 0], [9]⟩) ∧
    SendSafe ⟨.Sentinel, 0, write_u16 [9].length, [9]⟩ ∧
    recv_result_hwf (recv_tick_loop getcEmpty 1 () .Unknown []) :=
  ⟨tick_accesses_in_bounds_for_nonempty.1 Unit putcBlocked 1 ()
      ⟨.Data, 0, [1, 0], [9]⟩ (sendSafe_data 0 [1, 0] [9] rfl (by decide)),
   (tick_accesses_in_bounds_for_nonempty.2.1 [9] (by decide) (by decide)).1,
   tick_accesses_in_bounds_for_nonempty.2.2.1 Unit getcEmpty 1 () .Unknown []
     trivial⟩

end FramedSerial
